import Mathlib

/-!
Shallow embedding of the `EmotionDetector` class from
`src/models/emotion_detection/emotion_classifier.py` (SentioAI).

Modelling choices:
* Python dicts (which preserve insertion order) are modelled as association
  lists over `String` keys; the `m[k] = m.get(k, 0) + w` upsert keeps the
  position of an existing key and appends a fresh key at the end, exactly as
  CPython dicts do.
* `collections.deque(maxlen=w)` is modelled as a list that keeps only the
  `w` most recent elements after each append.
* Wall-clock timestamps, confidences and weights are rationals.
* The external DeepFace classifier is modelled as an `Except`-valued response
  handed to each `detect_emotion` call: `Except.error e` stands for the
  classifier (or the BGR-to-RGB conversion) raising an exception with message
  `e`; `Except.ok r` stands for a successful analysis of the chosen face.
* `time.strftime('%H:%M:%S', time.localtime t)` is modelled as an arbitrary
  formatting function `fmt : ℚ → String` passed to the operations.
-/

namespace SentioAI

/-- Association-list lookup: value of the first binding of key `c`
(Python `d[c]`, `none` standing for a `KeyError`). -/
def assocVal {β : Type} : List (String × β) → String → Option β
  | [], _ => none
  | (k, v) :: rest, c => if k = c then some v else assocVal rest c

/-- The Python dict upsert `d[e] = d.get(e, 0) + w` (equivalently
`if e not in d: d[e] = 0` followed by `d[e] += w`): an existing key keeps its
position, a fresh key is appended at the end (dict insertion order). -/
def addVal {β : Type} [Add β] : List (String × β) → String → β → List (String × β)
  | [], e, w => [(e, w)]
  | (k, v) :: rest, e, w =>
      if k = e then (k, v + w) :: rest else (k, v) :: addVal rest e w

/-- Accumulate a list of weighted keys into a dict, starting from empty. -/
def buildAssoc {β : Type} [Add β] (ws : List (String × β)) : List (String × β) :=
  ws.foldl (fun acc p => addVal acc p.1 p.2) []

/-- Python `max(d, key=d.get)` over a non-empty dict: scans the entries in
insertion order and keeps the first entry whose value is strictly greater than
the best so far, so the first maximal entry wins ties. -/
def maxEntry {β : Type} [LinearOrder β] : (String × β) → List (String × β) → (String × β)
  | best, [] => best
  | best, p :: rest => maxEntry (if best.2 < p.2 then p else best) rest

/-- Key of the first maximal entry of a dict, with a default for the empty
dict (Python `max` would raise there). -/
def maxKeyOf {β : Type} [LinearOrder β] (l : List (String × β)) (dflt : String) : String :=
  match l with
  | [] => dflt
  | p :: rest => (maxEntry p rest).1

/-- Total weight contributed to key `c` by a list of weighted keys. -/
def sumFor {β : Type} [AddMonoid β] (ws : List (String × β)) (c : String) : β :=
  ((ws.filter (fun p => decide (p.1 = c))).map Prod.snd).sum

/-- The distinct elements of a list, in order of first occurrence. -/
def firstOccs : List String → List String
  | [] => []
  | e :: rest => e :: (firstOccs rest).filter (fun c => decide (c ≠ e))

/-- Index of the first occurrence of `c` (length of the list if absent). -/
def firstIdx (c : String) : List String → ℕ
  | [] => 0
  | e :: rest => if e = c then 0 else firstIdx c rest + 1

/-- Number of occurrences of `c` in a list of category labels. -/
def occCount (c : String) : List String → ℕ
  | [] => 0
  | e :: rest => (if e = c then 1 else 0) + occCount c rest

/-- The weighted pairs produced by the smoothing loop
`for i, entry in enumerate(self.emotion_history)`: the element at 0-indexed
position `i` is paired with weight `(i + 1) / n`. -/
def weightedPairs (n : ℚ) : ℕ → List String → List (String × ℚ)
  | _, [] => []
  | i, e :: rest => (e, ((i : ℚ) + 1) / n) :: weightedPairs n (i + 1) rest

/-- Running total of the weights `(i + 1) / n` of the occurrences of `c`,
starting the position count at `i`. -/
def indexedWeightSum (n : ℚ) (c : String) : ℕ → List String → ℚ
  | _, [] => 0
  | i, e :: rest =>
      (if e = c then ((i : ℚ) + 1) / n else 0) + indexedWeightSum n c (i + 1) rest

/-- Specification-side weight function, following the spec text: iterating the
buffer categories oldest to newest, the entry at 0-indexed position `i`
(buffer length `N`) contributes weight `(i + 1) / N` to its category. -/
def specWeight (ems : List String) (c : String) : ℚ :=
  indexedWeightSum (ems.length : ℚ) c 0 ems

/-- `collections.deque(maxlen := maxlen).append`: append on the right and keep
only the `maxlen` most recent elements (with `maxlen = 0` the deque stays
empty). -/
def dequeAppend {α : Type} (maxlen : ℕ) (l : List α) (x : α) : List α :=
  (l ++ [x]).drop ((l ++ [x]).length - maxlen)

/-- One element of `self.emotion_history` (a `RecentObservation`). -/
structure HistEntry where
  emotion : String
  confidence : ℚ
  timestamp : ℚ
  all_emotions : List (String × ℚ)
  deriving DecidableEq

/-- One element of `self.emotion_log` (a `SessionLogEntry`). -/
structure LogEntry where
  emotion : String
  timestamp : ℚ
  readable_time : String
  deriving DecidableEq

/-- Default `LogEntry`, used only as the (unreachable) default of
`List.getLastD` on lists known to be non-empty. -/
def noLogEntry : LogEntry :=
  { emotion := "", timestamp := 0, readable_time := "" }

/-- The mutable state of an `EmotionDetector` instance. -/
structure EmotionDetector where
  smoothing_window : ℕ
  detection_interval : ℚ
  last_detection_time : ℚ
  emotion_history : List HistEntry
  emotion_log : List LogEntry
  deriving DecidableEq

/-- `EmotionDetector.__init__`: no explicit validation is performed; the only
failure is `deque(maxlen=smoothing_window)` raising
`ValueError: maxlen must be non-negative` for a negative window.
`last_detection_time` starts at `0`, history and log start empty. -/
def mkEmotionDetector (smoothing_window : ℤ) (detection_interval : ℚ) :
    Except String EmotionDetector :=
  if smoothing_window < 0 then Except.error "maxlen must be non-negative"
  else Except.ok
    { smoothing_window := smoothing_window.toNat
      detection_interval := detection_interval
      last_detection_time := 0
      emotion_history := []
      emotion_log := [] }

/-- `EmotionDetector.get_smoothed_emotion`: empty history yields `"neutral"`;
otherwise build the weighted counts dict with weight `(i + 1) / len(history)`
for position `i` and return the key with the greatest accumulated weight
(first inserted wins ties, as Python `max` over a dict does). -/
def getSmoothedEmotion (d : EmotionDetector) : String :=
  if d.emotion_history = [] then "neutral"
  else
    maxKeyOf
      (buildAssoc
        (weightedPairs ((d.emotion_history.length : ℚ)) 0
          (d.emotion_history.map (fun e => e.emotion))))
      "neutral"

/-- The result dict returned by `detect_emotion` / `get_last_emotion`
(`error := none` when the dict carries no `'error'` key). -/
structure DetectResult where
  emotion : String
  confidence : ℚ
  smoothed_emotion : String
  all_emotions : List (String × ℚ)
  face_detected : Bool
  timestamp : ℚ
  error : Option String
  deriving DecidableEq

/-- The fallback dict built in the `except` branch of `detect_emotion`. -/
def errorResult (now : ℚ) (e : String) : DetectResult :=
  { emotion := "neutral"
    confidence := 0
    smoothed_emotion := "neutral"
    all_emotions := []
    face_detected := false
    timestamp := now
    error := some e }

/-- `EmotionDetector.get_last_emotion`: the cached verdict built from the last
history entry plus the current smoothed verdict; neutral defaults when the
history is empty. -/
def getLastEmotion (d : EmotionDetector) (now : ℚ) : DetectResult :=
  match d.emotion_history.getLast? with
  | some entry =>
      { emotion := entry.emotion
        confidence := entry.confidence
        smoothed_emotion := getSmoothedEmotion d
        all_emotions := entry.all_emotions
        face_detected := true
        timestamp := entry.timestamp
        error := none }
  | none =>
      { emotion := "neutral"
        confidence := 0
        smoothed_emotion := "neutral"
        all_emotions := []
        face_detected := false
        timestamp := now
        error := none }

/-- `EmotionDetector.log_emotion`: append a log entry carrying the category,
the timestamp and its human-readable formatting. -/
def logEmotion (fmt : ℚ → String) (d : EmotionDetector) (emotion : String)
    (timestamp : ℚ) : EmotionDetector :=
  { d with
    emotion_log :=
      d.emotion_log ++ [{ emotion := emotion, timestamp := timestamp,
                          readable_time := fmt timestamp }] }

/-- The successful result of one `DeepFace.analyze` call for the chosen
(first) face: the per-category confidences and the dominant category. -/
structure ClassOutcome where
  emotions : List (String × ℚ)
  dominant_emotion : String
  deriving DecidableEq

/-- Outcome of one `detect_emotion` call: the updated detector state, the
returned result dict, and whether the external classification pipeline was
entered (i.e. the rate gate was passed). -/
structure DetectOutcome where
  state : EmotionDetector
  result : DetectResult
  invoked : Bool
  deriving DecidableEq

/-- `EmotionDetector.detect_emotion`:
* rate gate: if less than `detection_interval` has elapsed since
  `last_detection_time`, return `get_last_emotion()` without classifying;
* on an exception from the classification pipeline, return the neutral
  fallback dict with the error message attached, leaving the state unchanged;
* otherwise append the observation to the history, update
  `last_detection_time`, recompute the smoothed verdict, log it when the log
  is empty or at least 15 seconds passed since the last log entry, and return
  the full result dict. -/
def detectEmotion (fmt : ℚ → String) (d : EmotionDetector) (now : ℚ)
    (response : Except String ClassOutcome) : DetectOutcome :=
  if now - d.last_detection_time < d.detection_interval then
    { state := d, result := getLastEmotion d now, invoked := false }
  else
    match response with
    | Except.error e => { state := d, result := errorResult now e, invoked := true }
    | Except.ok r =>
      match assocVal r.emotions r.dominant_emotion with
      | none =>
          { state := d, result := errorResult now "KeyError", invoked := true }
      | some confidence =>
          let entry : HistEntry :=
            { emotion := r.dominant_emotion
              confidence := confidence
              timestamp := now
              all_emotions := r.emotions }
          let d1 : EmotionDetector :=
            { d with
              emotion_history := dequeAppend d.smoothing_window d.emotion_history entry
              last_detection_time := now }
          let smoothed := getSmoothedEmotion d1
          let d2 : EmotionDetector :=
            if d1.emotion_log = [] ∨
                15 ≤ now - (d1.emotion_log.getLastD noLogEntry).timestamp then
              logEmotion fmt d1 smoothed now
            else d1
          { state := d2
            result :=
              { emotion := r.dominant_emotion
                confidence := confidence
                smoothed_emotion := smoothed
                all_emotions := r.emotions
                face_detected := true
                timestamp := now
                error := none }
            invoked := true }

/-- `EmotionDetector.export_emotion_log`: the ordered sequence of records
serialized to the JSON file (the full in-memory log; file naming and the
write itself are I/O outside the embedding). -/
def exportEmotionLog (d : EmotionDetector) : List LogEntry :=
  d.emotion_log

/-- Python `round(x, 1)`: round to the nearest multiple of one tenth. -/
def roundTo1 (x : ℚ) : ℚ :=
  ((round (x * 10) : ℤ) : ℚ) / 10

/-- A populated session summary dict. -/
structure SessionSummary where
  duration_minutes : ℚ
  total_emotions_logged : ℕ
  most_common_emotion : String
  emotion_breakdown : List (String × ℕ)
  session_start : String
  session_end : String
  deriving DecidableEq

/-- Return type of `get_session_summary`: the Python function returns the
string `"No emotions logged yet"` for an empty log and a summary dict
otherwise; the two are modelled as distinct constructors. -/
inductive SummaryResult
  | noData
  | summary (s : SessionSummary)
  deriving DecidableEq

/-- `EmotionDetector.get_session_summary`: count the logged categories into a
dict (insertion order preserved), take the first most-common key, the
duration between the first and last log timestamps rounded to one decimal of
minutes, and the readable first/last times. -/
def getSessionSummary (d : EmotionDetector) : SummaryResult :=
  match d.emotion_log with
  | [] => SummaryResult.noData
  | e0 :: rest =>
      SummaryResult.summary
        { duration_minutes :=
            roundTo1 ((((e0 :: rest).getLastD e0).timestamp - e0.timestamp) / 60)
          total_emotions_logged := (e0 :: rest).length
          most_common_emotion :=
            maxKeyOf (buildAssoc ((e0 :: rest).map (fun en => (en.emotion, (1 : ℕ))))) ""
          emotion_breakdown :=
            buildAssoc ((e0 :: rest).map (fun en => (en.emotion, (1 : ℕ))))
          session_start := e0.readable_time
          session_end := ((e0 :: rest).getLastD e0).readable_time }

/-- Run a sequence of `detect_emotion` calls (timestamp plus classifier
response for each call), returning the final detector state. -/
def runCalls (fmt : ℚ → String) (d : EmotionDetector)
    (calls : List (ℚ × Except String ClassOutcome)) : EmotionDetector :=
  calls.foldl (fun s c => (detectEmotion fmt s c.1 c.2).state) d

/-- A detector fresh out of the constructor with the given configuration. -/
def freshDetector (w : ℕ) (i : ℚ) : EmotionDetector :=
  { smoothing_window := w
    detection_interval := i
    last_detection_time := 0
    emotion_history := []
    emotion_log := [] }

/-- Trivial timestamp formatter used for concrete runs. -/
def emptyFmt : ℚ → String := fun _ => ""

/-- A successful classifier outcome dominated by `"happy"`. -/
def happyOutcome : ClassOutcome :=
  { emotions := [("happy", 90)], dominant_emotion := "happy" }

/-- The detector of the spec's capacity-3 example, its buffer holding the
categories `sad, sad, happy` in arrival order. -/
def dC1 : EmotionDetector :=
  { smoothing_window := 3
    detection_interval := 3
    last_detection_time := 2
    emotion_history :=
      dequeAppend 3
        (dequeAppend 3
          (dequeAppend 3 []
            { emotion := "sad", confidence := 70, timestamp := 0,
              all_emotions := [("sad", 70)] })
          { emotion := "sad", confidence := 70, timestamp := 1,
            all_emotions := [("sad", 70)] })
        { emotion := "happy", confidence := 70, timestamp := 2,
          all_emotions := [("happy", 70)] }
    emotion_log := [] }

/-- The 30-second scenario of the spec: 15 classification calls 2 seconds
apart (detection_interval = 2), every call classified successfully. -/
def c6Schedule : List (ℚ × Except String ClassOutcome) :=
  (List.range 15).map (fun k => (((100 : ℚ) + 2 * (k : ℚ)), Except.ok happyOutcome))

/-- Final state of the 30-second scenario run. -/
def runC6 : EmotionDetector :=
  runCalls emptyFmt (freshDetector 8 2) c6Schedule

/-- A detector with three session-log entries, used as concrete input for the
summary theorems. -/
def dSum : EmotionDetector :=
  { smoothing_window := 8
    detection_interval := 2
    last_detection_time := 220
    emotion_history := []
    emotion_log :=
      [{ emotion := "happy", timestamp := 100, readable_time := "10:00:00" },
       { emotion := "sad", timestamp := 160, readable_time := "10:01:00" },
       { emotion := "happy", timestamp := 220, readable_time := "10:02:00" }] }

end SentioAI

namespace SentioAI

/-! ### Dict (association list) lemmas -/

theorem assocVal_addVal_ne {β : Type} [Add β] (l : List (String × β)) (e : String)
    (w : β) (c : String) (h : c ≠ e) : assocVal (addVal l e w) c = assocVal l c := by
  induction l with
  | nil => simp [addVal, assocVal, Ne.symm h]
  | cons p rest ih =>
    obtain ⟨k, v⟩ := p
    by_cases hk : k = e
    · subst hk
      simp [addVal, assocVal, Ne.symm h]
    · simp [addVal, hk, assocVal, ih]

theorem assocVal_addVal_self_some {β : Type} [Add β] (l : List (String × β))
    (e : String) (w v : β) (h : assocVal l e = some v) :
    assocVal (addVal l e w) e = some (v + w) := by
  induction l with
  | nil => simp [assocVal] at h
  | cons p rest ih =>
    obtain ⟨k, v'⟩ := p
    by_cases hk : k = e
    · subst hk
      simp [assocVal] at h
      simp [addVal, assocVal, h]
    · simp [assocVal, hk] at h
      simp [addVal, hk, assocVal, ih h]

theorem assocVal_addVal_self_none {β : Type} [Add β] (l : List (String × β))
    (e : String) (w : β) (h : assocVal l e = none) :
    assocVal (addVal l e w) e = some w := by
  induction l with
  | nil => simp [addVal, assocVal]
  | cons p rest ih =>
    obtain ⟨k, v'⟩ := p
    by_cases hk : k = e
    · subst hk
      simp [assocVal] at h
    · simp [assocVal, hk] at h
      simp [addVal, hk, assocVal, ih h]

theorem addVal_map_fst_of_mem {β : Type} [Add β] (l : List (String × β))
    (e : String) (w : β) (h : e ∈ l.map Prod.fst) :
    (addVal l e w).map Prod.fst = l.map Prod.fst := by
  induction l with
  | nil => simp at h
  | cons p rest ih =>
    obtain ⟨k, v⟩ := p
    by_cases hk : k = e
    · simp [addVal, hk]
    · have h' : e = k ∨ ∃ x, (e, x) ∈ rest := by simpa using h
      have : e ∈ rest.map Prod.fst := by
        rcases h' with h1 | ⟨x, hx⟩
        · exact absurd h1.symm hk
        · exact List.mem_map_of_mem Prod.fst hx
      simp [addVal, hk, ih this]

theorem addVal_map_fst_of_not_mem {β : Type} [Add β] (l : List (String × β))
    (e : String) (w : β) (h : e ∉ l.map Prod.fst) :
    (addVal l e w).map Prod.fst = l.map Prod.fst ++ [e] := by
  induction l with
  | nil => simp [addVal]
  | cons p rest ih =>
    obtain ⟨k, v⟩ := p
    have hk : k ≠ e := by
      intro hke
      exact h (by simp [hke])
    have hrest : e ∉ rest.map Prod.fst := fun hm => h (by simp [hm])
    simp [addVal, hk, ih hrest]

theorem assocVal_eq_none_iff {β : Type} (l : List (String × β)) (c : String) :
    assocVal l c = none ↔ c ∉ l.map Prod.fst := by
  induction l with
  | nil => simp [assocVal]
  | cons p rest ih =>
    obtain ⟨k, v⟩ := p
    by_cases hk : k = c
    · subst hk
      simp [assocVal]
    · simp [assocVal, hk, ih, Ne.symm hk]

theorem assocVal_mem {β : Type} (l : List (String × β)) (c : String) (v : β)
    (h : assocVal l c = some v) : (c, v) ∈ l := by
  induction l with
  | nil => simp [assocVal] at h
  | cons p rest ih =>
    obtain ⟨k, v'⟩ := p
    by_cases hk : k = c
    · subst hk
      simp [assocVal] at h
      simp [h]
    · simp [assocVal, hk] at h
      exact List.mem_cons_of_mem _ (ih h)

theorem assocVal_of_mem_nodup {β : Type} (l : List (String × β)) (c : String) (v : β)
    (hnd : (l.map Prod.fst).Nodup) (h : (c, v) ∈ l) : assocVal l c = some v := by
  induction l with
  | nil => simp at h
  | cons p rest ih =>
    obtain ⟨k, v'⟩ := p
    rcases List.mem_cons.mp h with h1 | h1
    · obtain ⟨hk, hv⟩ := Prod.mk.injEq .. ▸ h1.symm
      simp [assocVal, hk.symm, hv.symm]
    · have hk : k ≠ c := by
        intro hke
        subst hke
        have : k ∈ rest.map Prod.fst := List.mem_map_of_mem Prod.fst h1
        exact (List.nodup_cons.mp (by simpa using hnd)).1 this
      have hnd' : (rest.map Prod.fst).Nodup := (List.nodup_cons.mp (by simpa using hnd)).2
      simp [assocVal, hk, ih hnd' h1]

theorem buildAssoc_concat {β : Type} [Add β] (ws : List (String × β)) (p : String × β) :
    buildAssoc (ws ++ [p]) = addVal (buildAssoc ws) p.1 p.2 := by
  simp [buildAssoc, List.foldl_append]

/-! ### First-occurrence order lemmas -/

theorem mem_firstOccs (l : List String) (c : String) : c ∈ firstOccs l ↔ c ∈ l := by
  induction l with
  | nil => simp [firstOccs]
  | cons e rest ih =>
    by_cases hc : c = e
    · subst hc
      simp [firstOccs]
    · simp [firstOccs, List.mem_filter, hc, ih]

theorem firstOccs_concat (l : List String) (e : String) :
    firstOccs (l ++ [e]) = if e ∈ l then firstOccs l else firstOccs l ++ [e] := by
  induction l with
  | nil => simp [firstOccs]
  | cons a l ih =>
    by_cases he : e ∈ a :: l
    · rw [if_pos he]
      rcases List.mem_cons.mp he with h1 | h1
      · subst h1
        by_cases h2 : e ∈ l
        · simp [firstOccs, ih, h2]
        · simp [firstOccs, ih, h2, List.filter_append, List.filter_cons]
      · simp [firstOccs, ih, h1]
    · have ha : e ≠ a := fun h => he (by simp [h])
      have hl : e ∉ l := fun h => he (by simp [h])
      simp [firstOccs, ih, hl, List.filter_append, List.filter_cons, ha]

theorem firstOccs_nodup (l : List String) : (firstOccs l).Nodup := by
  induction l with
  | nil => simp [firstOccs]
  | cons e rest ih =>
    rw [firstOccs, List.nodup_cons]
    constructor
    · intro hmem
      have := (List.mem_filter.mp hmem).2
      simp at this
    · exact List.Nodup.filter _ ih

theorem buildAssoc_map_fst {β : Type} [Add β] (ws : List (String × β)) :
    (buildAssoc ws).map Prod.fst = firstOccs (ws.map Prod.fst) := by
  induction ws using List.reverseRecOn with
  | nil => rfl
  | append_singleton ws p ih =>
    rw [buildAssoc_concat, List.map_append]
    simp only [List.map_cons, List.map_nil]
    rw [firstOccs_concat]
    by_cases hp : p.1 ∈ ws.map Prod.fst
    · have hmem : p.1 ∈ (buildAssoc ws).map Prod.fst := by
        rw [ih, mem_firstOccs]
        exact hp
      rw [addVal_map_fst_of_mem _ _ _ hmem, ih, if_pos hp]
    · have hmem : p.1 ∉ (buildAssoc ws).map Prod.fst := by
        rw [ih, mem_firstOccs]
        exact hp
      rw [addVal_map_fst_of_not_mem _ _ _ hmem, ih, if_neg hp]

end SentioAI

namespace SentioAI

/-! ### Accumulated-weight lemmas -/

theorem sumFor_cons {β : Type} [AddMonoid β] (e : String) (w : β)
    (ws : List (String × β)) (c : String) :
    sumFor ((e, w) :: ws) c = if e = c then w + sumFor ws c else sumFor ws c := by
  by_cases h : e = c <;> simp [sumFor, List.filter_cons, h]

theorem sumFor_concat {β : Type} [AddMonoid β] (ws : List (String × β))
    (e : String) (w : β) (c : String) :
    sumFor (ws ++ [(e, w)]) c = sumFor ws c + (if e = c then w else 0) := by
  by_cases h : e = c <;>
    simp [sumFor, List.filter_append, List.filter_cons, h, List.sum_append]

theorem sumFor_eq_zero_of_not_mem {β : Type} [AddMonoid β] (ws : List (String × β))
    (c : String) (h : c ∉ ws.map Prod.fst) : sumFor ws c = 0 := by
  induction ws with
  | nil => simp [sumFor]
  | cons p rest ih =>
    obtain ⟨k, v⟩ := p
    have hk : k ≠ c := by
      intro hke
      exact h (by simp [hke])
    have hrest : c ∉ rest.map Prod.fst := fun hm => h (by simp [hm])
    rw [sumFor_cons, if_neg hk, ih hrest]

theorem buildAssoc_assocVal {β : Type} [AddMonoid β] (ws : List (String × β)) (c : String) :
    assocVal (buildAssoc ws) c =
      if c ∈ ws.map Prod.fst then some (sumFor ws c) else none := by
  induction ws using List.reverseRecOn with
  | nil => simp [buildAssoc, assocVal]
  | append_singleton ws p ih =>
    obtain ⟨e, w⟩ := p
    rw [buildAssoc_concat]
    by_cases hc : c = e
    · subst hc
      have hmem : c ∈ (ws ++ [(c, w)]).map Prod.fst := by simp
      rw [if_pos hmem, sumFor_concat, if_pos rfl]
      by_cases hm : c ∈ ws.map Prod.fst
      · have h1 : assocVal (buildAssoc ws) c = some (sumFor ws c) := by
          rw [ih, if_pos hm]
        rw [assocVal_addVal_self_some _ _ _ _ h1]
      · have h1 : assocVal (buildAssoc ws) c = none := by
          rw [ih, if_neg hm]
        rw [assocVal_addVal_self_none _ _ _ h1,
          sumFor_eq_zero_of_not_mem _ _ hm, zero_add]
    · have hzero : (if e = c then w else 0) = 0 := if_neg (fun hh => hc hh.symm)
      rw [assocVal_addVal_ne _ _ _ _ hc, ih]
      have hmm : c ∈ (ws ++ [(e, w)]).map Prod.fst ↔ c ∈ ws.map Prod.fst := by
        simp [hc]
      by_cases hm : c ∈ ws.map Prod.fst
      · rw [if_pos hm, if_pos (hmm.mpr hm), sumFor_concat, hzero, add_zero]
      · rw [if_neg hm, if_neg (fun hh => hm (hmm.mp hh))]

/-! ### First-index and pairwise order lemmas -/

theorem firstIdx_cons (e c : String) (l : List String) :
    firstIdx c (e :: l) = if e = c then 0 else firstIdx c l + 1 := rfl

theorem firstOccs_pairwise (l : List String) :
    List.Pairwise (fun a b => firstIdx a l < firstIdx b l) (firstOccs l) := by
  induction l with
  | nil => simp [firstOccs]
  | cons e l ih =>
    rw [firstOccs, List.pairwise_cons]
    constructor
    · intro b hb
      have hbne : b ≠ e := by
        have := (List.mem_filter.mp hb).2
        simpa using this
      rw [firstIdx_cons, firstIdx_cons, if_pos rfl, if_neg (Ne.symm hbne)]
      exact Nat.succ_pos _
    · have hp : List.Pairwise (fun a b => firstIdx a l < firstIdx b l)
          ((firstOccs l).filter (fun c => decide (c ≠ e))) :=
        List.Pairwise.sublist (List.filter_sublist _) ih
      apply hp.imp_of_mem
      intro a b ha hb hab
      have hane : a ≠ e := by
        have := (List.mem_filter.mp ha).2
        simpa using this
      have hbne : b ≠ e := by
        have := (List.mem_filter.mp hb).2
        simpa using this
      rw [firstIdx_cons, firstIdx_cons, if_neg (Ne.symm hane), if_neg (Ne.symm hbne)]
      omega

end SentioAI

namespace SentioAI

/-! ### Python `max(d, key=d.get)` decomposition -/

theorem maxEntry_decomp {β : Type} [LinearOrder β] (rest : List (String × β))
    (best : String × β) :
    ∃ pre post, best :: rest = pre ++ maxEntry best rest :: post ∧
      (∀ p ∈ pre, p.2 < (maxEntry best rest).2) ∧
      (∀ p ∈ best :: rest, p.2 ≤ (maxEntry best rest).2) := by
  induction rest generalizing best with
  | nil =>
    refine ⟨[], [], rfl, by simp, ?_⟩
    intro p hp
    rcases List.mem_cons.mp hp with h1 | h1
    · subst h1
      exact le_refl _
    · simp at h1
  | cons q rest ih =>
    simp only [maxEntry]
    by_cases hbq : best.2 < q.2
    · rw [if_pos hbq]
      obtain ⟨pre, post, hdec, hpre, hall⟩ := ih q
      have hq : q.2 ≤ (maxEntry q rest).2 := hall q (List.mem_cons_self q rest)
      refine ⟨best :: pre, post, ?_, ?_, ?_⟩
      · rw [List.cons_append, ← hdec]
      · intro p hp
        rcases List.mem_cons.mp hp with h1 | h1
        · subst h1
          exact lt_of_lt_of_le hbq hq
        · exact hpre p h1
      · intro p hp
        rcases List.mem_cons.mp hp with h1 | h1
        · subst h1
          exact le_of_lt (lt_of_lt_of_le hbq hq)
        · exact hall p h1
    · rw [if_neg hbq]
      obtain ⟨pre, post, hdec, hpre, hall⟩ := ih best
      have hq : q.2 ≤ best.2 := le_of_not_lt hbq
      have hbestle : best.2 ≤ (maxEntry best rest).2 :=
        hall best (List.mem_cons_self best rest)
      cases pre with
      | nil =>
        rw [List.nil_append] at hdec
        injection hdec with h1 h2
        refine ⟨[], q :: rest, ?_, by simp, ?_⟩
        · rw [List.nil_append, ← h1]
        · intro p hp
          rcases List.mem_cons.mp hp with hb | hb
          · subst hb
            exact hbestle
          · rcases List.mem_cons.mp hb with hb2 | hb2
            · subst hb2
              exact le_trans hq hbestle
            · exact hall p (List.mem_cons_of_mem _ hb2)
      | cons a pre' =>
        rw [List.cons_append] at hdec
        injection hdec with h1 h2
        have hbestlt : best.2 < (maxEntry best rest).2 := by
          have := hpre a (List.mem_cons_self a pre')
          rw [← h1] at this
          exact this
        refine ⟨best :: q :: pre', post, ?_, ?_, ?_⟩
        · rw [List.cons_append, List.cons_append, ← h2]
        · intro p hp
          rcases List.mem_cons.mp hp with hb | hb
          · subst hb
            exact hbestlt
          · rcases List.mem_cons.mp hb with hb2 | hb2
            · subst hb2
              exact lt_of_le_of_lt hq hbestlt
            · exact hpre p (List.mem_cons_of_mem _ hb2)
        · intro p hp
          rcases List.mem_cons.mp hp with hb | hb
          · subst hb
            exact hbestle
          · rcases List.mem_cons.mp hb with hb2 | hb2
            · subst hb2
              exact le_trans hq hbestle
            · exact hall p (List.mem_cons_of_mem _ hb2)

/-- Central characterization: over a non-empty weighted-key list, the code's
dict-then-max computation returns a key that occurs among the input keys,
whose accumulated weight is maximal, and that is the first-encountered key
among the maximal ones (first occurrence at the smallest index). -/
theorem buildAssoc_firstMax {β : Type} [LinearOrder β] [AddMonoid β]
    (ws : List (String × β)) (dflt : String) (hws : ws ≠ []) :
    maxKeyOf (buildAssoc ws) dflt ∈ ws.map Prod.fst ∧
    (∀ c ∈ ws.map Prod.fst,
      sumFor ws c ≤ sumFor ws (maxKeyOf (buildAssoc ws) dflt)) ∧
    (∀ c ∈ ws.map Prod.fst,
      sumFor ws c = sumFor ws (maxKeyOf (buildAssoc ws) dflt) →
      firstIdx (maxKeyOf (buildAssoc ws) dflt) (ws.map Prod.fst) ≤
        firstIdx c (ws.map Prod.fst)) := by
  have hkeys : (buildAssoc ws).map Prod.fst = firstOccs (ws.map Prod.fst) :=
    buildAssoc_map_fst ws
  have hne : buildAssoc ws ≠ [] := by
    intro h
    have hfo : firstOccs (ws.map Prod.fst) = [] := by
      rw [← hkeys, h]
      rfl
    cases hmap : ws.map Prod.fst with
    | nil => exact hws (List.map_eq_nil_iff.mp hmap)
    | cons a l =>
      rw [hmap, firstOccs] at hfo
      exact List.cons_ne_nil _ _ hfo
  obtain ⟨p, rest, hlist⟩ := List.exists_cons_of_ne_nil hne
  have hmk : maxKeyOf (buildAssoc ws) dflt = (maxEntry p rest).1 := by
    rw [hlist]
    rfl
  obtain ⟨pre, post, hdec, hpre, hall⟩ := maxEntry_decomp rest p
  have hmem : maxEntry p rest ∈ buildAssoc ws := by
    rw [hlist, hdec]
    exact List.mem_append_right _ (List.mem_cons_self _ _)
  have hnd : ((buildAssoc ws).map Prod.fst).Nodup := by
    rw [hkeys]
    exact firstOccs_nodup _
  have hk1 : (maxEntry p rest).1 ∈ ws.map Prod.fst := by
    have hh : (maxEntry p rest).1 ∈ (buildAssoc ws).map Prod.fst :=
      List.mem_map_of_mem Prod.fst hmem
    rw [hkeys, mem_firstOccs] at hh
    exact hh
  have hmem' : ((maxEntry p rest).1, (maxEntry p rest).2) ∈ buildAssoc ws := by
    rw [Prod.mk.eta]
    exact hmem
  have hv : assocVal (buildAssoc ws) (maxEntry p rest).1 = some (maxEntry p rest).2 :=
    assocVal_of_mem_nodup _ _ _ hnd hmem'
  have hval : (maxEntry p rest).2 = sumFor ws (maxEntry p rest).1 := by
    have h2 := buildAssoc_assocVal ws (maxEntry p rest).1
    rw [hv, if_pos hk1] at h2
    exact Option.some_inj.mp h2
  have hboundPairs : ∀ c ∈ ws.map Prod.fst, (c, sumFor ws c) ∈ p :: rest := by
    intro c hc
    have hcv : assocVal (buildAssoc ws) c = some (sumFor ws c) := by
      rw [buildAssoc_assocVal, if_pos hc]
    have hcmem := assocVal_mem _ _ _ hcv
    rw [hlist] at hcmem
    exact hcmem
  refine ⟨?_, ?_, ?_⟩
  · rw [hmk]
    exact hk1
  · intro c hc
    have hcle : sumFor ws c ≤ (maxEntry p rest).2 := hall _ (hboundPairs c hc)
    rw [hmk, ← hval]
    exact hcle
  · intro c hc heq
    rw [hmk] at heq ⊢
    have hcmem : (c, sumFor ws c) ∈ pre ++ maxEntry p rest :: post := by
      rw [← hdec]
      exact hboundPairs c hc
    rcases List.mem_append.mp hcmem with hin | hin
    · exfalso
      have hlt := hpre _ hin
      rw [heq, ← hval] at hlt
      exact lt_irrefl _ hlt
    · rcases List.mem_cons.mp hin with hin2 | hin2
      · have hceq : c = (maxEntry p rest).1 := by
          have := congrArg Prod.fst hin2
          exact this
        rw [hceq]
      · have hcpost : c ∈ post.map Prod.fst := by
          have := List.mem_map_of_mem Prod.fst hin2
          exact this
        have hkeysdec : (buildAssoc ws).map Prod.fst =
            pre.map Prod.fst ++ (maxEntry p rest).1 :: post.map Prod.fst := by
          rw [hlist, hdec]
          simp [List.map_append]
        have hpw : List.Pairwise
            (fun a b => firstIdx a (ws.map Prod.fst) < firstIdx b (ws.map Prod.fst))
            ((buildAssoc ws).map Prod.fst) := by
          rw [hkeys]
          exact firstOccs_pairwise _
        rw [hkeysdec] at hpw
        obtain ⟨-, hp2, -⟩ := List.pairwise_append.mp hpw
        obtain ⟨hhead, -⟩ := List.pairwise_cons.mp hp2
        exact le_of_lt (hhead c hcpost)

end SentioAI

namespace SentioAI

/-! ### Bridges between the code-side and spec-side functions -/

theorem weightedPairs_map_fst (n : ℚ) (i : ℕ) (l : List String) :
    (weightedPairs n i l).map Prod.fst = l := by
  induction l generalizing i with
  | nil => rfl
  | cons e rest ih => simp [weightedPairs, ih]

theorem weightedPairs_ne_nil (n : ℚ) (i : ℕ) (l : List String) (h : l ≠ []) :
    weightedPairs n i l ≠ [] := by
  cases l with
  | nil => exact absurd rfl h
  | cons e rest => simp [weightedPairs]

theorem sumFor_weightedPairs (n : ℚ) (c : String) (i : ℕ) (l : List String) :
    sumFor (weightedPairs n i l) c = indexedWeightSum n c i l := by
  induction l generalizing i with
  | nil => rfl
  | cons e rest ih =>
    rw [weightedPairs, sumFor_cons, indexedWeightSum]
    by_cases h : e = c
    · rw [if_pos h, if_pos h, ih]
    · rw [if_neg h, if_neg h, ih, zero_add]

theorem sumFor_countPairs (c : String) (l : List String) :
    sumFor (l.map (fun e => (e, (1 : ℕ)))) c = occCount c l := by
  induction l with
  | nil => rfl
  | cons e rest ih =>
    rw [List.map_cons, sumFor_cons, occCount]
    by_cases h : e = c
    · rw [if_pos h, if_pos h, ih]
    · rw [if_neg h, if_neg h, ih, zero_add]

theorem countPairs_map_fst (l : List String) :
    (l.map (fun e => (e, (1 : ℕ)))).map Prod.fst = l := by
  induction l with
  | nil => rfl
  | cons e rest ih => simp [ih]

/-! ### Deque lemmas -/

theorem dequeAppend_zero {α : Type} (l : List α) (x : α) :
    dequeAppend 0 l x = [] := by
  simp [dequeAppend]

theorem dequeAppend_getLast {α : Type} (m : ℕ) (l : List α) (x : α) (h : 1 ≤ m) :
    (dequeAppend m l x).getLast? = some x := by
  unfold dequeAppend
  have hlen : (l ++ [x]).length = l.length + 1 := by simp
  rw [hlen]
  have hle : l.length + 1 - m ≤ l.length := by omega
  rw [List.drop_append_of_le_length hle]
  exact List.getLast?_concat _

theorem dequeAppend_ne_nil {α : Type} (m : ℕ) (l : List α) (x : α) (h : 1 ≤ m) :
    dequeAppend m l x ≠ [] := by
  intro hc
  have := dequeAppend_getLast m l x h
  rw [hc] at this
  simp at this

/-! ### Rounding lemmas -/

theorem roundTo1_tenth (x : ℚ) : ∃ k : ℤ, roundTo1 x = (k : ℚ) / 10 :=
  ⟨round (x * 10), rfl⟩

theorem roundTo1_close (x : ℚ) : |roundTo1 x - x| ≤ 1 / 20 := by
  have h1 : |x * 10 - round (x * 10)| ≤ 1 / 2 := abs_sub_round (x * 10)
  have h2 : roundTo1 x - x = -((x * 10 - ((round (x * 10) : ℤ) : ℚ)) / 10) := by
    rw [roundTo1]
    ring
  rw [h2, abs_neg, abs_div]
  have h10 : |(10 : ℚ)| = 10 := by norm_num
  rw [h10]
  linarith

/-! ### `List.getLastD` bridge -/

theorem getLastD_indep {α : Type} (e0 : α) (rest : List α) (a b : α) :
    (e0 :: rest).getLastD a = (e0 :: rest).getLastD b := by
  induction rest generalizing e0 with
  | nil => rfl
  | cons e1 rest ih => exact ih e1

/-! ### Unfolding lemmas for `detect_emotion` -/

theorem detectEmotion_gated (fmt : ℚ → String) (d : EmotionDetector) (now : ℚ)
    (resp : Except String ClassOutcome)
    (h : now - d.last_detection_time < d.detection_interval) :
    detectEmotion fmt d now resp =
      { state := d, result := getLastEmotion d now, invoked := false } := by
  rw [detectEmotion.eq_def, if_pos h]

theorem detectEmotion_error (fmt : ℚ → String) (d : EmotionDetector) (now : ℚ)
    (e : String)
    (h : ¬ (now - d.last_detection_time < d.detection_interval)) :
    detectEmotion fmt d now (Except.error e) =
      { state := d, result := errorResult now e, invoked := true } := by
  rw [detectEmotion.eq_def, if_neg h]

theorem detectEmotion_keyError (fmt : ℚ → String) (d : EmotionDetector) (now : ℚ)
    (r : ClassOutcome)
    (h : ¬ (now - d.last_detection_time < d.detection_interval))
    (hl : assocVal r.emotions r.dominant_emotion = none) :
    detectEmotion fmt d now (Except.ok r) =
      { state := d, result := errorResult now "KeyError", invoked := true } := by
  rw [detectEmotion.eq_def, if_neg h]
  simp only [hl]

/-- State after a successful, gate-passing classification, before logging. -/
def successState (d : EmotionDetector) (now : ℚ) (r : ClassOutcome)
    (confidence : ℚ) : EmotionDetector :=
  { d with
    emotion_history :=
      dequeAppend d.smoothing_window d.emotion_history
        { emotion := r.dominant_emotion
          confidence := confidence
          timestamp := now
          all_emotions := r.emotions }
    last_detection_time := now }

theorem detectEmotion_success (fmt : ℚ → String) (d : EmotionDetector) (now : ℚ)
    (r : ClassOutcome) (confidence : ℚ)
    (h : ¬ (now - d.last_detection_time < d.detection_interval))
    (hl : assocVal r.emotions r.dominant_emotion = some confidence) :
    detectEmotion fmt d now (Except.ok r) =
      { state :=
          if d.emotion_log = [] ∨
              15 ≤ now - (d.emotion_log.getLastD noLogEntry).timestamp then
            logEmotion fmt (successState d now r confidence)
              (getSmoothedEmotion (successState d now r confidence)) now
          else successState d now r confidence
        result :=
          { emotion := r.dominant_emotion
            confidence := confidence
            smoothed_emotion := getSmoothedEmotion (successState d now r confidence)
            all_emotions := r.emotions
            face_detected := true
            timestamp := now
            error := none }
        invoked := true } := by
  rw [detectEmotion.eq_def, if_neg h]
  simp only [hl, successState]

end SentioAI

namespace SentioAI

theorem getSmoothedEmotion_nil (d : EmotionDetector) (h : d.emotion_history = []) :
    getSmoothedEmotion d = "neutral" := by
  rw [getSmoothedEmotion, if_pos h]

theorem detectEmotion_invoked (fmt : ℚ → String) (d : EmotionDetector) (now : ℚ)
    (resp : Except String ClassOutcome)
    (h : ¬ (now - d.last_detection_time < d.detection_interval)) :
    (detectEmotion fmt d now resp).invoked = true := by
  cases resp with
  | error e => rw [detectEmotion_error _ _ _ _ h]
  | ok r =>
    cases hl : assocVal r.emotions r.dominant_emotion with
    | none => rw [detectEmotion_keyError _ _ _ _ h hl]
    | some conf => rw [detectEmotion_success _ _ _ _ _ h hl]

/-- Fields of the post-call state of a gate-passing successful classification,
independent of whether the logging branch fired. -/
theorem detectEmotion_success_state (fmt : ℚ → String) (d : EmotionDetector)
    (now : ℚ) (r : ClassOutcome) (conf : ℚ)
    (h : ¬ (now - d.last_detection_time < d.detection_interval))
    (hl : assocVal r.emotions r.dominant_emotion = some conf) :
    (detectEmotion fmt d now (Except.ok r)).state.last_detection_time = now ∧
    (detectEmotion fmt d now (Except.ok r)).state.detection_interval =
      d.detection_interval ∧
    (detectEmotion fmt d now (Except.ok r)).state.smoothing_window =
      d.smoothing_window ∧
    (detectEmotion fmt d now (Except.ok r)).state.emotion_history =
      dequeAppend d.smoothing_window d.emotion_history
        { emotion := r.dominant_emotion, confidence := conf, timestamp := now,
          all_emotions := r.emotions } := by
  rw [detectEmotion_success fmt d now r conf h hl]
  by_cases hcond : d.emotion_log = [] ∨
      15 ≤ now - (d.emotion_log.getLastD noLogEntry).timestamp
  · rw [if_pos hcond]
    exact ⟨rfl, rfl, rfl, rfl⟩
  · rw [if_neg hcond]
    exact ⟨rfl, rfl, rfl, rfl⟩

/-- C1 (counterexample): on the buffer `[sad, sad, happy]` of capacity 3 the
smoothing function does not return `"happy"`; it returns `"sad"`. -/
theorem c1_example_counterexample :
    getSmoothedEmotion dC1 ≠ "happy" ∧ getSmoothedEmotion dC1 = "sad" := by
  have h : getSmoothedEmotion dC1 = "sad" := by
    simp [getSmoothedEmotion, dC1, dequeAppend, weightedPairs, buildAssoc, addVal,
      maxKeyOf, maxEntry]
    norm_num
  refine ⟨?_, h⟩
  rw [h]
  simp

/-- C1 (amended): for a buffer of capacity 3 containing, in arrival order,
observations with categories `[sad, sad, happy]`, the weights are
`1/3, 2/3, 3/3` from oldest to newest, so sad accumulates `1/3 + 2/3 = 1` and
happy accumulates `3/3 = 1`; the tie is broken in favor of sad, the category
encountered first, and `get_smoothed_emotion` returns `"sad"`. -/
theorem c1_example_amended :
    dC1.emotion_history.map (fun e => e.emotion) = ["sad", "sad", "happy"] ∧
    specWeight ["sad", "sad", "happy"] "sad" = 1 ∧
    specWeight ["sad", "sad", "happy"] "happy" = 1 ∧
    firstIdx "sad" ["sad", "sad", "happy"] < firstIdx "happy" ["sad", "sad", "happy"] ∧
    getSmoothedEmotion dC1 = "sad" := by
  refine ⟨by decide, ?_, ?_, by decide, ?_⟩
  · simp [specWeight, indexedWeightSum]
    norm_num
  · simp [specWeight, indexedWeightSum]
    norm_num
  · simp [getSmoothedEmotion, dC1, dequeAppend, weightedPairs, buildAssoc, addVal,
      maxKeyOf, maxEntry]
    norm_num

/-- C2: for every non-empty buffer, `get_smoothed_emotion` returns a category
of the buffer whose accumulated weight (entry at 0-indexed position `i` of a
length-`N` buffer contributing `(i+1)/N`) is greatest, and among the
categories of maximal weight the one encountered first (smallest first
occurrence index) is returned; an empty buffer yields `"neutral"`. -/
theorem c2_smoothed_emotion_spec (d : EmotionDetector) :
    (d.emotion_history = [] → getSmoothedEmotion d = "neutral") ∧
    (d.emotion_history ≠ [] →
      getSmoothedEmotion d ∈ d.emotion_history.map (fun e => e.emotion) ∧
      (∀ c ∈ d.emotion_history.map (fun e => e.emotion),
        specWeight (d.emotion_history.map (fun e => e.emotion)) c ≤
          specWeight (d.emotion_history.map (fun e => e.emotion))
            (getSmoothedEmotion d)) ∧
      (∀ c ∈ d.emotion_history.map (fun e => e.emotion),
        specWeight (d.emotion_history.map (fun e => e.emotion)) c =
          specWeight (d.emotion_history.map (fun e => e.emotion))
            (getSmoothedEmotion d) →
        firstIdx (getSmoothedEmotion d)
            (d.emotion_history.map (fun e => e.emotion)) ≤
          firstIdx c (d.emotion_history.map (fun e => e.emotion)))) := by
  constructor
  · exact getSmoothedEmotion_nil d
  · intro h
    set ems := d.emotion_history.map (fun e => e.emotion) with hems
    have hif : getSmoothedEmotion d =
        maxKeyOf (buildAssoc (weightedPairs ((d.emotion_history.length : ℚ)) 0 ems))
          "neutral" := by
      rw [getSmoothedEmotion, if_neg h]
    have hemsne : ems ≠ [] := by
      intro hc
      rw [hems] at hc
      exact h (List.map_eq_nil_iff.mp hc)
    have hwne : weightedPairs ((d.emotion_history.length : ℚ)) 0 ems ≠ [] :=
      weightedPairs_ne_nil _ _ _ hemsne
    have hmain := buildAssoc_firstMax
      (weightedPairs ((d.emotion_history.length : ℚ)) 0 ems) "neutral" hwne
    rw [weightedPairs_map_fst] at hmain
    have hsum : ∀ c, sumFor (weightedPairs ((d.emotion_history.length : ℚ)) 0 ems) c =
        specWeight ems c := by
      intro c
      rw [sumFor_weightedPairs, specWeight]
      have hlen : (ems.length : ℚ) = (d.emotion_history.length : ℚ) := by
        rw [hems, List.length_map]
      rw [hlen]
    obtain ⟨h1, h2, h3⟩ := hmain
    rw [← hif] at h1 h2 h3
    refine ⟨h1, ?_, ?_⟩
    · intro c hc
      have hle := h2 c hc
      rw [hsum, hsum] at hle
      exact hle
    · intro c hc heq
      apply h3 c hc
      rw [hsum, hsum]
      exact heq

/-- C2 (witness): a concrete non-empty buffer on which the theorem applies. -/
theorem c2_smoothed_emotion_spec_witness :
    getSmoothedEmotion dC1 ∈ dC1.emotion_history.map (fun e => e.emotion) :=
  ((c2_smoothed_emotion_spec dC1).2 (by decide)).1

/-- C3 (counterexample): constructing with the non-positive configuration
`smoothing_window = 0`, `detection_interval = 0` does not fail; it returns a
detector instance. -/
theorem c3_counterexample :
    mkEmotionDetector 0 0 =
      Except.ok
        { smoothing_window := 0, detection_interval := 0,
          last_detection_time := 0, emotion_history := [], emotion_log := [] } := by
  rfl

/-- C3 (amended): the constructor performs no explicit validation: every
`smoothing_window ≥ 0` together with every `detection_interval` (including
non-positive values) yields a detector instance; only a negative
`smoothing_window` fails at construction, via the bounded deque's own
`maxlen must be non-negative` check. -/
theorem c3_amended (w : ℤ) (i : ℚ) :
    (0 ≤ w → mkEmotionDetector w i =
      Except.ok
        { smoothing_window := w.toNat, detection_interval := i,
          last_detection_time := 0, emotion_history := [], emotion_log := [] }) ∧
    (w < 0 → mkEmotionDetector w i = Except.error "maxlen must be non-negative") := by
  constructor
  · intro h
    rw [mkEmotionDetector, if_neg (not_lt.mpr h)]
  · intro h
    rw [mkEmotionDetector, if_pos h]

/-- C3 (witness): the amended claim at the concrete non-positive
configuration `(0, -1)`. -/
theorem c3_amended_witness :
    mkEmotionDetector 0 (-1) =
      Except.ok
        { smoothing_window := 0, detection_interval := -1,
          last_detection_time := 0, emotion_history := [], emotion_log := [] } :=
  (c3_amended 0 (-1)).1 (by decide)

/-- C4: when the classification pipeline raises, `detect_emotion` returns the
neutral fallback (emotion `"neutral"`, confidence 0, smoothed `"neutral"`,
empty mapping, no face, the error message attached) and leaves the whole
detector state — history, log and `last_detection_time` — unchanged. -/
theorem c4_error_fallback (fmt : ℚ → String) (d : EmotionDetector) (now : ℚ)
    (e : String) (h : ¬ (now - d.last_detection_time < d.detection_interval)) :
    (detectEmotion fmt d now (Except.error e)).state = d ∧
    (detectEmotion fmt d now (Except.error e)).result.emotion = "neutral" ∧
    (detectEmotion fmt d now (Except.error e)).result.confidence = 0 ∧
    (detectEmotion fmt d now (Except.error e)).result.smoothed_emotion = "neutral" ∧
    (detectEmotion fmt d now (Except.error e)).result.all_emotions = [] ∧
    (detectEmotion fmt d now (Except.error e)).result.face_detected = false ∧
    (detectEmotion fmt d now (Except.error e)).result.error = some e := by
  rw [detectEmotion_error fmt d now e h]
  simp [errorResult]

/-- C4 (witness): the error fallback at a concrete gate-passing call. -/
theorem c4_error_fallback_witness :
    (detectEmotion emptyFmt (freshDetector 8 3) 10 (Except.error "boom")).state =
      freshDetector 8 3 ∧
    (detectEmotion emptyFmt (freshDetector 8 3) 10
      (Except.error "boom")).result.error = some "boom" :=
  ⟨(c4_error_fallback emptyFmt (freshDetector 8 3) 10 "boom"
     (by norm_num [freshDetector])).1,
   (c4_error_fallback emptyFmt (freshDetector 8 3) 10 "boom"
     (by norm_num [freshDetector])).2.2.2.2.2.2⟩

/-- C9: the error path leaves the state (in particular
`last_detection_time`, the buffer and the log) unchanged, so a failed
classification starts no cooldown: any later call still passes the rate gate
and enters the classification pipeline again. -/
theorem c9_error_frame (fmt fmt2 : ℚ → String) (d : EmotionDetector)
    (now t2 : ℚ) (e : String) (resp2 : Except String ClassOutcome)
    (h : ¬ (now - d.last_detection_time < d.detection_interval))
    (h2 : now ≤ t2) :
    (detectEmotion fmt d now (Except.error e)).state = d ∧
    (detectEmotion fmt2 (detectEmotion fmt d now (Except.error e)).state t2
      resp2).invoked = true := by
  have hs : (detectEmotion fmt d now (Except.error e)).state = d := by
    rw [detectEmotion_error fmt d now e h]
  refine ⟨hs, ?_⟩
  rw [hs]
  have hgate2 : ¬ (t2 - d.last_detection_time < d.detection_interval) := by
    intro hc
    exact h (by linarith)
  exact detectEmotion_invoked fmt2 d t2 resp2 hgate2

/-- C9 (witness): a concrete failed call followed half a second later by a
call that still classifies. -/
theorem c9_error_frame_witness :
    (detectEmotion emptyFmt (freshDetector 8 3) 10 (Except.error "boom")).state =
      freshDetector 8 3 ∧
    (detectEmotion emptyFmt
      (detectEmotion emptyFmt (freshDetector 8 3) 10 (Except.error "boom")).state
      (21 / 2) (Except.ok happyOutcome)).invoked = true :=
  c9_error_frame emptyFmt emptyFmt (freshDetector 8 3) 10 (21 / 2) "boom"
    (Except.ok happyOutcome) (by norm_num [freshDetector]) (by norm_num)

/-- C10: constructing with `smoothing_window = 0` succeeds, and the
zero-capacity buffer stays empty across every `detect_emotion` call, so the
smoothing function always takes the empty-buffer branch and returns
`"neutral"` without reaching the weight computation. -/
theorem c10_zero_window_safe (i : ℚ) (fmt : ℚ → String) (d : EmotionDetector)
    (now : ℚ) (resp : Except String ClassOutcome) :
    mkEmotionDetector 0 i =
      Except.ok
        { smoothing_window := 0, detection_interval := i,
          last_detection_time := 0, emotion_history := [], emotion_log := [] } ∧
    (d.smoothing_window = 0 → d.emotion_history = [] →
      (detectEmotion fmt d now resp).state.emotion_history = [] ∧
      (detectEmotion fmt d now resp).state.smoothing_window = 0 ∧
      getSmoothedEmotion (detectEmotion fmt d now resp).state = "neutral") := by
  constructor
  · rw [mkEmotionDetector, if_neg (by decide)]
    rfl
  · intro hw hh
    by_cases hgate : now - d.last_detection_time < d.detection_interval
    · rw [detectEmotion_gated _ _ _ _ hgate]
      exact ⟨hh, hw, getSmoothedEmotion_nil _ hh⟩
    · cases resp with
      | error e =>
        rw [detectEmotion_error _ _ _ _ hgate]
        exact ⟨hh, hw, getSmoothedEmotion_nil _ hh⟩
      | ok r =>
        cases hl : assocVal r.emotions r.dominant_emotion with
        | none =>
          rw [detectEmotion_keyError _ _ _ _ hgate hl]
          exact ⟨hh, hw, getSmoothedEmotion_nil _ hh⟩
        | some conf =>
          have hfields := detectEmotion_success_state fmt d now r conf hgate hl
          have hhist : (detectEmotion fmt d now (Except.ok r)).state.emotion_history
              = [] := by
            rw [hfields.2.2.2, hw, dequeAppend_zero]
          exact ⟨hhist, by rw [hfields.2.2.1, hw], getSmoothedEmotion_nil _ hhist⟩

/-- C10 (witness): one concrete zero-window call. -/
theorem c10_zero_window_safe_witness :
    getSmoothedEmotion
      (detectEmotion emptyFmt (freshDetector 0 3) 10
        (Except.ok happyOutcome)).state = "neutral" :=
  ((c10_zero_window_safe 3 emptyFmt (freshDetector 0 3) 10
    (Except.ok happyOutcome)).2 rfl rfl).2.2

end SentioAI

namespace SentioAI

theorem detectEmotion_success_log (fmt : ℚ → String) (d : EmotionDetector) (now : ℚ)
    (r : ClassOutcome) (conf : ℚ)
    (hg : ¬ (now - d.last_detection_time < d.detection_interval))
    (hl : assocVal r.emotions r.dominant_emotion = some conf)
    (hcond : d.emotion_log = [] ∨
      15 ≤ now - (d.emotion_log.getLastD noLogEntry).timestamp) :
    (detectEmotion fmt d now (Except.ok r)).state =
      logEmotion fmt (successState d now r conf)
        (getSmoothedEmotion (successState d now r conf)) now := by
  rw [detectEmotion_success fmt d now r conf hg hl]
  rw [if_pos hcond]

theorem detectEmotion_success_nolog (fmt : ℚ → String) (d : EmotionDetector) (now : ℚ)
    (r : ClassOutcome) (conf : ℚ)
    (hg : ¬ (now - d.last_detection_time < d.detection_interval))
    (hl : assocVal r.emotions r.dominant_emotion = some conf)
    (hcond : ¬ (d.emotion_log = [] ∨
      15 ≤ now - (d.emotion_log.getLastD noLogEntry).timestamp)) :
    (detectEmotion fmt d now (Except.ok r)).state = successState d now r conf := by
  rw [detectEmotion_success fmt d now r conf hg hl]
  rw [if_neg hcond]

/-- The observation every successful call of the 30-second scenario appends. -/
def happyObs (t : ℚ) : HistEntry :=
  { emotion := "happy", confidence := 90, timestamp := t, all_emotions := [("happy", 90)] }

/-- The log entry the scenario appends (formatter `emptyFmt`). -/
def happyLog (t : ℚ) : LogEntry :=
  { emotion := "happy", timestamp := t, readable_time := "" }

/-- Intermediate state of the 30-second scenario run. -/
def c6State (last : ℚ) (hist : List ℚ) (log : List ℚ) : EmotionDetector :=
  { smoothing_window := 8
    detection_interval := 2
    last_detection_time := last
    emotion_history := hist.map happyObs
    emotion_log := log.map happyLog }

theorem c6_schedule_eval : c6Schedule =
    [((100 : ℚ), Except.ok happyOutcome), (102, Except.ok happyOutcome),
     (104, Except.ok happyOutcome), (106, Except.ok happyOutcome),
     (108, Except.ok happyOutcome), (110, Except.ok happyOutcome),
     (112, Except.ok happyOutcome), (114, Except.ok happyOutcome),
     (116, Except.ok happyOutcome), (118, Except.ok happyOutcome),
     (120, Except.ok happyOutcome), (122, Except.ok happyOutcome),
     (124, Except.ok happyOutcome), (126, Except.ok happyOutcome),
     (128, Except.ok happyOutcome)] := by
  norm_num [c6Schedule, List.range_succ]

theorem c6_step1 :
    (detectEmotion emptyFmt (freshDetector 8 2) 100 (Except.ok happyOutcome)).state =
      c6State 100 [100] [100] := by
  rw [detectEmotion_success_log emptyFmt (freshDetector 8 2) 100 happyOutcome 90
    (by norm_num [freshDetector]) (by simp [happyOutcome, assocVal]) (Or.inl rfl)]
  rfl

theorem c6_step2 :
    (detectEmotion emptyFmt (c6State 100 [100] [100]) 102 (Except.ok happyOutcome)).state =
      c6State 102 [100, 102] [100] := by
  rw [detectEmotion_success_nolog emptyFmt (c6State 100 [100] [100]) 102 happyOutcome 90
    (by norm_num [c6State]) (by simp [happyOutcome, assocVal])
    (not_or.mpr ⟨by simp [c6State, happyLog], by norm_num [c6State, happyLog, noLogEntry]⟩)]
  rfl

theorem c6_step3 :
    (detectEmotion emptyFmt (c6State 102 [100, 102] [100]) 104 (Except.ok happyOutcome)).state =
      c6State 104 [100, 102, 104] [100] := by
  rw [detectEmotion_success_nolog emptyFmt (c6State 102 [100, 102] [100]) 104 happyOutcome 90
    (by norm_num [c6State]) (by simp [happyOutcome, assocVal])
    (not_or.mpr ⟨by simp [c6State, happyLog], by norm_num [c6State, happyLog, noLogEntry]⟩)]
  rfl

theorem c6_step4 :
    (detectEmotion emptyFmt (c6State 104 [100, 102, 104] [100]) 106 (Except.ok happyOutcome)).state =
      c6State 106 [100, 102, 104, 106] [100] := by
  rw [detectEmotion_success_nolog emptyFmt (c6State 104 [100, 102, 104] [100]) 106 happyOutcome 90
    (by norm_num [c6State]) (by simp [happyOutcome, assocVal])
    (not_or.mpr ⟨by simp [c6State, happyLog], by norm_num [c6State, happyLog, noLogEntry]⟩)]
  rfl

theorem c6_step5 :
    (detectEmotion emptyFmt (c6State 106 [100, 102, 104, 106] [100]) 108 (Except.ok happyOutcome)).state =
      c6State 108 [100, 102, 104, 106, 108] [100] := by
  rw [detectEmotion_success_nolog emptyFmt (c6State 106 [100, 102, 104, 106] [100]) 108 happyOutcome 90
    (by norm_num [c6State]) (by simp [happyOutcome, assocVal])
    (not_or.mpr ⟨by simp [c6State, happyLog], by norm_num [c6State, happyLog, noLogEntry]⟩)]
  rfl

theorem c6_step6 :
    (detectEmotion emptyFmt (c6State 108 [100, 102, 104, 106, 108] [100]) 110 (Except.ok happyOutcome)).state =
      c6State 110 [100, 102, 104, 106, 108, 110] [100] := by
  rw [detectEmotion_success_nolog emptyFmt (c6State 108 [100, 102, 104, 106, 108] [100]) 110 happyOutcome 90
    (by norm_num [c6State]) (by simp [happyOutcome, assocVal])
    (not_or.mpr ⟨by simp [c6State, happyLog], by norm_num [c6State, happyLog, noLogEntry]⟩)]
  rfl

theorem c6_step7 :
    (detectEmotion emptyFmt (c6State 110 [100, 102, 104, 106, 108, 110] [100]) 112 (Except.ok happyOutcome)).state =
      c6State 112 [100, 102, 104, 106, 108, 110, 112] [100] := by
  rw [detectEmotion_success_nolog emptyFmt (c6State 110 [100, 102, 104, 106, 108, 110] [100]) 112 happyOutcome 90
    (by norm_num [c6State]) (by simp [happyOutcome, assocVal])
    (not_or.mpr ⟨by simp [c6State, happyLog], by norm_num [c6State, happyLog, noLogEntry]⟩)]
  rfl

theorem c6_step8 :
    (detectEmotion emptyFmt (c6State 112 [100, 102, 104, 106, 108, 110, 112] [100]) 114 (Except.ok happyOutcome)).state =
      c6State 114 [100, 102, 104, 106, 108, 110, 112, 114] [100] := by
  rw [detectEmotion_success_nolog emptyFmt (c6State 112 [100, 102, 104, 106, 108, 110, 112] [100]) 114 happyOutcome 90
    (by norm_num [c6State]) (by simp [happyOutcome, assocVal])
    (not_or.mpr ⟨by simp [c6State, happyLog], by norm_num [c6State, happyLog, noLogEntry]⟩)]
  rfl

theorem c6_step9 :
    (detectEmotion emptyFmt (c6State 114 [100, 102, 104, 106, 108, 110, 112, 114] [100]) 116 (Except.ok happyOutcome)).state =
      c6State 116 [102, 104, 106, 108, 110, 112, 114, 116] [100, 116] := by
  rw [detectEmotion_success_log emptyFmt (c6State 114 [100, 102, 104, 106, 108, 110, 112, 114] [100]) 116 happyOutcome 90
    (by norm_num [c6State]) (by simp [happyOutcome, assocVal])
    (Or.inr (by norm_num [c6State, happyLog, noLogEntry]))]
  rfl

theorem c6_step10 :
    (detectEmotion emptyFmt (c6State 116 [102, 104, 106, 108, 110, 112, 114, 116] [100, 116]) 118 (Except.ok happyOutcome)).state =
      c6State 118 [104, 106, 108, 110, 112, 114, 116, 118] [100, 116] := by
  rw [detectEmotion_success_nolog emptyFmt (c6State 116 [102, 104, 106, 108, 110, 112, 114, 116] [100, 116]) 118 happyOutcome 90
    (by norm_num [c6State]) (by simp [happyOutcome, assocVal])
    (not_or.mpr ⟨by simp [c6State, happyLog], by norm_num [c6State, happyLog, noLogEntry]⟩)]
  rfl

theorem c6_step11 :
    (detectEmotion emptyFmt (c6State 118 [104, 106, 108, 110, 112, 114, 116, 118] [100, 116]) 120 (Except.ok happyOutcome)).state =
      c6State 120 [106, 108, 110, 112, 114, 116, 118, 120] [100, 116] := by
  rw [detectEmotion_success_nolog emptyFmt (c6State 118 [104, 106, 108, 110, 112, 114, 116, 118] [100, 116]) 120 happyOutcome 90
    (by norm_num [c6State]) (by simp [happyOutcome, assocVal])
    (not_or.mpr ⟨by simp [c6State, happyLog], by norm_num [c6State, happyLog, noLogEntry]⟩)]
  rfl

theorem c6_step12 :
    (detectEmotion emptyFmt (c6State 120 [106, 108, 110, 112, 114, 116, 118, 120] [100, 116]) 122 (Except.ok happyOutcome)).state =
      c6State 122 [108, 110, 112, 114, 116, 118, 120, 122] [100, 116] := by
  rw [detectEmotion_success_nolog emptyFmt (c6State 120 [106, 108, 110, 112, 114, 116, 118, 120] [100, 116]) 122 happyOutcome 90
    (by norm_num [c6State]) (by simp [happyOutcome, assocVal])
    (not_or.mpr ⟨by simp [c6State, happyLog], by norm_num [c6State, happyLog, noLogEntry]⟩)]
  rfl

theorem c6_step13 :
    (detectEmotion emptyFmt (c6State 122 [108, 110, 112, 114, 116, 118, 120, 122] [100, 116]) 124 (Except.ok happyOutcome)).state =
      c6State 124 [110, 112, 114, 116, 118, 120, 122, 124] [100, 116] := by
  rw [detectEmotion_success_nolog emptyFmt (c6State 122 [108, 110, 112, 114, 116, 118, 120, 122] [100, 116]) 124 happyOutcome 90
    (by norm_num [c6State]) (by simp [happyOutcome, assocVal])
    (not_or.mpr ⟨by simp [c6State, happyLog], by norm_num [c6State, happyLog, noLogEntry]⟩)]
  rfl

theorem c6_step14 :
    (detectEmotion emptyFmt (c6State 124 [110, 112, 114, 116, 118, 120, 122, 124] [100, 116]) 126 (Except.ok happyOutcome)).state =
      c6State 126 [112, 114, 116, 118, 120, 122, 124, 126] [100, 116] := by
  rw [detectEmotion_success_nolog emptyFmt (c6State 124 [110, 112, 114, 116, 118, 120, 122, 124] [100, 116]) 126 happyOutcome 90
    (by norm_num [c6State]) (by simp [happyOutcome, assocVal])
    (not_or.mpr ⟨by simp [c6State, happyLog], by norm_num [c6State, happyLog, noLogEntry]⟩)]
  rfl

theorem c6_step15 :
    (detectEmotion emptyFmt (c6State 126 [112, 114, 116, 118, 120, 122, 124, 126] [100, 116]) 128 (Except.ok happyOutcome)).state =
      c6State 128 [114, 116, 118, 120, 122, 124, 126, 128] [100, 116] := by
  rw [detectEmotion_success_nolog emptyFmt (c6State 126 [112, 114, 116, 118, 120, 122, 124, 126] [100, 116]) 128 happyOutcome 90
    (by norm_num [c6State]) (by simp [happyOutcome, assocVal])
    (not_or.mpr ⟨by simp [c6State, happyLog], by norm_num [c6State, happyLog, noLogEntry]⟩)]
  rfl

theorem c6_run_eval : runC6 = c6State 128 [114, 116, 118, 120, 122, 124, 126, 128] [100, 116] := by
  simp only [runC6, runCalls, c6_schedule_eval, List.foldl_cons, List.foldl_nil]
  rw [c6_step1, c6_step2, c6_step3, c6_step4, c6_step5, c6_step6, c6_step7, c6_step8, c6_step9, c6_step10, c6_step11, c6_step12, c6_step13, c6_step14, c6_step15]

end SentioAI

namespace SentioAI

/-- C5 (counterexample): two calls 1 second apart with `detection_interval = 3`
where the classifier raises on the first call: the classification pipeline is
entered on both calls (two invocations, not at most one), and the second
call's `emotion` and `all_emotions` differ from the first call's. -/
theorem c5_counterexample :
    (11 : ℚ) - 10 < (freshDetector 8 3).detection_interval ∧
    (detectEmotion emptyFmt (freshDetector 8 3) 10 (Except.error "boom")).invoked
      = true ∧
    (detectEmotion emptyFmt
      (detectEmotion emptyFmt (freshDetector 8 3) 10 (Except.error "boom")).state
      11 (Except.ok happyOutcome)).invoked = true ∧
    (detectEmotion emptyFmt
      (detectEmotion emptyFmt (freshDetector 8 3) 10 (Except.error "boom")).state
      11 (Except.ok happyOutcome)).result.emotion ≠
      (detectEmotion emptyFmt (freshDetector 8 3) 10
        (Except.error "boom")).result.emotion ∧
    (detectEmotion emptyFmt
      (detectEmotion emptyFmt (freshDetector 8 3) 10 (Except.error "boom")).state
      11 (Except.ok happyOutcome)).result.all_emotions ≠
      (detectEmotion emptyFmt (freshDetector 8 3) 10
        (Except.error "boom")).result.all_emotions := by
  have hg1 : ¬ ((10 : ℚ) - (freshDetector 8 3).last_detection_time <
      (freshDetector 8 3).detection_interval) := by norm_num [freshDetector]
  have h1 := detectEmotion_error emptyFmt (freshDetector 8 3) 10 "boom" hg1
  have hg2 : ¬ ((11 : ℚ) - (freshDetector 8 3).last_detection_time <
      (freshDetector 8 3).detection_interval) := by norm_num [freshDetector]
  have hl : assocVal happyOutcome.emotions happyOutcome.dominant_emotion = some 90 := by
    simp [happyOutcome, assocVal]
  have h2 := detectEmotion_success emptyFmt (freshDetector 8 3) 11 happyOutcome 90 hg2 hl
  refine ⟨by norm_num [freshDetector], ?_, ?_, ?_, ?_⟩
  · rw [h1]
  · simp only [h1]
    rw [h2]
  · simp only [h1]
    rw [h2]
    simp [errorResult, happyOutcome]
  · simp only [h1]
    rw [h2]
    simp [errorResult, happyOutcome]

/-- C5 (amended): when the first of two calls less than `detection_interval`
apart passes the rate gate and classifies successfully, and the buffer
capacity is at least 1, the second call does not enter the classification
pipeline and returns the same `emotion` and `all_emotions` as the first. -/
theorem c5_amended (fmt fmt2 : ℚ → String) (d : EmotionDetector) (t1 t2 : ℚ)
    (r : ClassOutcome) (conf : ℚ) (resp2 : Except String ClassOutcome)
    (hgate : ¬ (t1 - d.last_detection_time < d.detection_interval))
    (hl : assocVal r.emotions r.dominant_emotion = some conf)
    (hwin : 1 ≤ d.smoothing_window)
    (hclose : t2 - t1 < d.detection_interval) :
    (detectEmotion fmt2 (detectEmotion fmt d t1 (Except.ok r)).state t2
      resp2).invoked = false ∧
    (detectEmotion fmt2 (detectEmotion fmt d t1 (Except.ok r)).state t2
      resp2).result.emotion = (detectEmotion fmt d t1 (Except.ok r)).result.emotion ∧
    (detectEmotion fmt2 (detectEmotion fmt d t1 (Except.ok r)).state t2
      resp2).result.all_emotions =
      (detectEmotion fmt d t1 (Except.ok r)).result.all_emotions := by
  obtain ⟨hlast, hint, -, hhist⟩ :=
    detectEmotion_success_state fmt d t1 r conf hgate hl
  have hgate2 : t2 - (detectEmotion fmt d t1 (Except.ok r)).state.last_detection_time <
      (detectEmotion fmt d t1 (Except.ok r)).state.detection_interval := by
    rw [hlast, hint]
    exact hclose
  have hout2 :=
    detectEmotion_gated fmt2 ((detectEmotion fmt d t1 (Except.ok r)).state) t2 resp2 hgate2
  have hlastQ : (detectEmotion fmt d t1 (Except.ok r)).state.emotion_history.getLast? =
      some { emotion := r.dominant_emotion, confidence := conf, timestamp := t1,
             all_emotions := r.emotions } := by
    rw [hhist]
    exact dequeAppend_getLast _ _ _ hwin
  have hres1 : (detectEmotion fmt d t1 (Except.ok r)).result =
      { emotion := r.dominant_emotion, confidence := conf,
        smoothed_emotion := getSmoothedEmotion (successState d t1 r conf),
        all_emotions := r.emotions, face_detected := true, timestamp := t1,
        error := none } := by
    rw [detectEmotion_success fmt d t1 r conf hgate hl]
  have hgle : getLastEmotion ((detectEmotion fmt d t1 (Except.ok r)).state) t2 =
      { emotion := r.dominant_emotion, confidence := conf,
        smoothed_emotion :=
          getSmoothedEmotion ((detectEmotion fmt d t1 (Except.ok r)).state),
        all_emotions := r.emotions, face_detected := true, timestamp := t1,
        error := none } := by
    rw [getLastEmotion.eq_def, hlastQ]
  refine ⟨?_, ?_, ?_⟩
  · rw [hout2]
  · rw [hout2, hgle, hres1]
  · rw [hout2, hgle, hres1]

/-- C5 (witness): the amended claim at a concrete pair of calls 1 second
apart with interval 3. -/
theorem c5_amended_witness :
    (detectEmotion emptyFmt
      (detectEmotion emptyFmt (freshDetector 8 3) 10 (Except.ok happyOutcome)).state
      11 (Except.ok happyOutcome)).invoked = false :=
  (c5_amended emptyFmt emptyFmt (freshDetector 8 3) 10 11 happyOutcome 90
    (Except.ok happyOutcome) (by norm_num [freshDetector])
    (by simp [happyOutcome, assocVal]) (by norm_num [freshDetector])
    (by norm_num [freshDetector])).1

/-- C6: a log entry carrying the smoothed category is appended exactly when
classification succeeds and the log is empty or at least 15 seconds have
elapsed since the last entry (independent of `detection_interval`); a gated
call, a raising call, or a call whose dominant category is missing from the
mapping leaves the log unchanged; and the 30-second scenario (15 successful
calls 2 seconds apart with `detection_interval = 2`) produces exactly 2 log
entries, at the call timestamps 100 and 116. -/
theorem c6_logging_cadence :
    (∀ (fmt : ℚ → String) (d : EmotionDetector) (now : ℚ) (r : ClassOutcome)
      (conf : ℚ),
      ¬ (now - d.last_detection_time < d.detection_interval) →
      assocVal r.emotions r.dominant_emotion = some conf →
      ((d.emotion_log = [] ∨
          15 ≤ now - (d.emotion_log.getLastD noLogEntry).timestamp) →
        (detectEmotion fmt d now (Except.ok r)).state.emotion_log =
          d.emotion_log ++
            [{ emotion :=
                 (detectEmotion fmt d now (Except.ok r)).result.smoothed_emotion,
               timestamp := now, readable_time := fmt now }]) ∧
      (¬ (d.emotion_log = [] ∨
          15 ≤ now - (d.emotion_log.getLastD noLogEntry).timestamp) →
        (detectEmotion fmt d now (Except.ok r)).state.emotion_log =
          d.emotion_log)) ∧
    (∀ (fmt : ℚ → String) (d : EmotionDetector) (now : ℚ)
      (resp : Except String ClassOutcome),
      now - d.last_detection_time < d.detection_interval →
      (detectEmotion fmt d now resp).state = d) ∧
    (∀ (fmt : ℚ → String) (d : EmotionDetector) (now : ℚ) (e : String),
      (detectEmotion fmt d now (Except.error e)).state.emotion_log =
        d.emotion_log) ∧
    (∀ (fmt : ℚ → String) (d : EmotionDetector) (now : ℚ) (r : ClassOutcome),
      assocVal r.emotions r.dominant_emotion = none →
      (detectEmotion fmt d now (Except.ok r)).state.emotion_log =
        d.emotion_log) ∧
    runC6.emotion_log.length = 2 ∧
    runC6.emotion_log.map (fun en => en.timestamp) = [100, 116] := by
  refine ⟨?_, ?_, ?_, ?_, ?_, ?_⟩
  · intro fmt d now r conf hgate hl
    constructor
    · intro hcond
      rw [detectEmotion_success_log fmt d now r conf hgate hl hcond,
        detectEmotion_success fmt d now r conf hgate hl]
      rfl
    · intro hcond
      rw [detectEmotion_success_nolog fmt d now r conf hgate hl hcond]
      rfl
  · intro fmt d now resp h
    rw [detectEmotion_gated fmt d now resp h]
  · intro fmt d now e
    by_cases h : now - d.last_detection_time < d.detection_interval
    · rw [detectEmotion_gated fmt d now _ h]
    · rw [detectEmotion_error fmt d now e h]
  · intro fmt d now r hl
    by_cases h : now - d.last_detection_time < d.detection_interval
    · rw [detectEmotion_gated fmt d now _ h]
    · rw [detectEmotion_keyError fmt d now r h hl]
  · rw [c6_run_eval]
    rfl
  · rw [c6_run_eval]
    rfl

/-- C6 (witness): the first logging conjunct at a concrete fresh detector. -/
theorem c6_logging_cadence_witness :
    (detectEmotion emptyFmt (freshDetector 8 2) 100
      (Except.ok happyOutcome)).state.emotion_log =
      (freshDetector 8 2).emotion_log ++
        [{ emotion := (detectEmotion emptyFmt (freshDetector 8 2) 100
             (Except.ok happyOutcome)).result.smoothed_emotion,
           timestamp := 100, readable_time := emptyFmt 100 }] :=
  (c6_logging_cadence.1 emptyFmt (freshDetector 8 2) 100 happyOutcome 90
    (by norm_num [freshDetector]) (by simp [happyOutcome, assocVal])).1
    (Or.inl rfl)

end SentioAI

namespace SentioAI

/-- C7: `get_session_summary` returns the distinct no-data indicator exactly
on an empty log; on a non-empty log it returns a summary whose duration is
the first-to-last log time difference in minutes rounded to one decimal (a
multiple of 1/10 within 1/20 of the exact value), whose total is the log
length, whose most-common category is the first-encountered category of
maximal frequency, whose breakdown maps every logged category to its count
(and nothing else), and whose start and end are the first and last entries'
readable times. -/
theorem c7_session_summary (d : EmotionDetector) :
    (d.emotion_log = [] → getSessionSummary d = SummaryResult.noData) ∧
    (d.emotion_log ≠ [] →
      ∃ s, getSessionSummary d = SummaryResult.summary s ∧
        (∃ k : ℤ, s.duration_minutes = (k : ℚ) / 10) ∧
        |s.duration_minutes -
          ((d.emotion_log.getLastD noLogEntry).timestamp -
            (d.emotion_log.headD noLogEntry).timestamp) / 60| ≤ 1 / 20 ∧
        s.total_emotions_logged = d.emotion_log.length ∧
        s.session_start = (d.emotion_log.headD noLogEntry).readable_time ∧
        s.session_end = (d.emotion_log.getLastD noLogEntry).readable_time ∧
        (∀ c, assocVal s.emotion_breakdown c =
          if c ∈ d.emotion_log.map (fun en => en.emotion)
          then some (occCount c (d.emotion_log.map (fun en => en.emotion)))
          else none) ∧
        s.most_common_emotion ∈ d.emotion_log.map (fun en => en.emotion) ∧
        (∀ c ∈ d.emotion_log.map (fun en => en.emotion),
          occCount c (d.emotion_log.map (fun en => en.emotion)) ≤
            occCount s.most_common_emotion
              (d.emotion_log.map (fun en => en.emotion))) ∧
        (∀ c ∈ d.emotion_log.map (fun en => en.emotion),
          occCount c (d.emotion_log.map (fun en => en.emotion)) =
            occCount s.most_common_emotion
              (d.emotion_log.map (fun en => en.emotion)) →
          firstIdx s.most_common_emotion
              (d.emotion_log.map (fun en => en.emotion)) ≤
            firstIdx c (d.emotion_log.map (fun en => en.emotion)))) := by
  constructor
  · intro h
    rw [getSessionSummary.eq_def, h]
  · intro h
    obtain ⟨e0, rest, hlog⟩ := List.exists_cons_of_ne_nil h
    rw [getSessionSummary.eq_def, hlog]
    have hgl : (e0 :: rest).getLastD noLogEntry = (e0 :: rest).getLastD e0 :=
      getLastD_indep e0 rest noLogEntry e0
    have hpairs : (e0 :: rest).map (fun en => (en.emotion, (1 : ℕ))) =
        ((e0 :: rest).map (fun en => en.emotion)).map (fun e => (e, (1 : ℕ))) := by
      simp [List.map_map]
    have hne : (e0 :: rest).map (fun en => (en.emotion, (1 : ℕ))) ≠ [] := by simp
    have hmc := buildAssoc_firstMax
      ((e0 :: rest).map (fun en => (en.emotion, (1 : ℕ)))) "" hne
    rw [hpairs, countPairs_map_fst] at hmc
    simp only [sumFor_countPairs] at hmc
    refine ⟨_, rfl, roundTo1_tenth _, ?_, rfl, rfl, ?_, ?_, ?_, ?_, ?_⟩
    · rw [hgl]
      exact roundTo1_close _
    · rw [hgl]
    · intro c
      show assocVal
        (buildAssoc ((e0 :: rest).map (fun en => (en.emotion, (1 : ℕ))))) c = _
      rw [buildAssoc_assocVal, hpairs, countPairs_map_fst,
        sumFor_countPairs]
    · show maxKeyOf
        (buildAssoc ((e0 :: rest).map (fun en => (en.emotion, (1 : ℕ))))) "" ∈ _
      rw [hpairs]
      exact hmc.1
    · intro c hc
      show occCount c ((e0 :: rest).map (fun en => en.emotion)) ≤
        occCount
          (maxKeyOf
            (buildAssoc ((e0 :: rest).map (fun en => (en.emotion, (1 : ℕ))))) "")
          ((e0 :: rest).map (fun en => en.emotion))
      rw [hpairs]
      exact hmc.2.1 c hc
    · intro c hc heq
      have heq2 : occCount c ((e0 :: rest).map (fun en => en.emotion)) =
          occCount
            (maxKeyOf
              (buildAssoc
                (((e0 :: rest).map (fun en => en.emotion)).map
                  (fun e => (e, (1 : ℕ))))) "")
            ((e0 :: rest).map (fun en => en.emotion)) := by
        rw [← hpairs]
        exact heq
      have := hmc.2.2 c hc heq2
      show firstIdx
          (maxKeyOf
            (buildAssoc ((e0 :: rest).map (fun en => (en.emotion, (1 : ℕ))))) "")
          ((e0 :: rest).map (fun en => en.emotion)) ≤
        firstIdx c ((e0 :: rest).map (fun en => en.emotion))
      rw [hpairs]
      exact this

/-- C7 (witness): the claim applied to a fresh detector (no data) and to a
concrete three-entry log (populated summary). -/
theorem c7_session_summary_witness :
    getSessionSummary (freshDetector 8 2) = SummaryResult.noData ∧
    (∃ s, getSessionSummary dSum = SummaryResult.summary s) := by
  constructor
  · exact (c7_session_summary (freshDetector 8 2)).1 rfl
  · obtain ⟨s, hs, -⟩ := (c7_session_summary dSum).2 (by simp [dSum])
    exact ⟨s, hs⟩

/-- C8: with a non-empty session log, the `total_emotions_logged` field of
the summary equals the length of the record sequence that
`export_emotion_log` writes at the same point in time. -/
theorem c8_export_summary_length (d : EmotionDetector) (h : d.emotion_log ≠ []) :
    ∃ s, getSessionSummary d = SummaryResult.summary s ∧
      s.total_emotions_logged = (exportEmotionLog d).length := by
  obtain ⟨e0, rest, hlog⟩ := List.exists_cons_of_ne_nil h
  rw [getSessionSummary.eq_def, hlog]
  refine ⟨_, rfl, ?_⟩
  show (e0 :: rest).length = (exportEmotionLog d).length
  rw [exportEmotionLog, hlog]

/-- C8 (witness): the equality at a concrete three-entry log. -/
theorem c8_export_summary_length_witness :
    ∃ s, getSessionSummary dSum = SummaryResult.summary s ∧
      s.total_emotions_logged = (exportEmotionLog dSum).length :=
  c8_export_summary_length dSum (by simp [dSum])

end SentioAI
